import Mathlib

/-!
Shallow embedding of the wgpu Game-of-Life application (`src/main.rs`) and
verification of the specification's claims about it.

The simulation lives in a WGSL compute shader (`computeMain`), the drawing in a
WGSL vertex/fragment pair (`vertexMain` / `fragmentMain`), and the Rust side
wires two state buffers through two bind groups and a 200 ms tick loop.
Machine integers are modelled as `Nat`/`Int` with explicit reductions modulo
`2 ^ 32` where u32 arithmetic can wrap; WGSL `i32` `%` is truncated remainder
(`Int.tmod`); WGSL float arithmetic in the render shaders is modelled over `ℚ`.
-/

namespace WgpuLife

/-- Grid side length: `const GRID_SIZE: usize = 32` in `src/main.rs`. -/
def GRID_SIZE : Nat := 32

/-- Compute tile side: `const WORKGROUP_SIZE: usize = 8` in `src/main.rs`,
spliced textually into the shader's `workgroup_size` attribute. -/
def WORKGROUP_SIZE : Nat := 8

/-- Number of cells `N = GRID_SIZE * GRID_SIZE`; both state buffers hold this
many u32 values. -/
def N : Nat := GRID_SIZE * GRID_SIZE

/-- Tick period in nanoseconds: `UPDATE_INTERVAL: Duration = Duration::new(0,
200_000_000)`, i.e. 200 ms. -/
def UPDATE_INTERVAL_NANOS : Nat := 200000000

/-- WGSL `u32(e)` conversion applied to an `i32` expression: value taken modulo
`2 ^ 32` (Lean's `Int.emod` by a positive modulus is nonnegative, matching the
wrap of negative values into u32 range). -/
def u32OfInt (e : Int) : Nat := (e % (2 ^ 32 : Int)).toNat

/-- WGSL `fn cell_index(cell: vec2<i32>) -> u32` from the simulation shader:
`u32(((cell.y + i32(grid.y)) % i32(grid.y)) * i32(grid.x) + ((cell.x +
i32(grid.x)) % i32(grid.x)))`. The i32 `%` operator is truncated remainder,
`Int.tmod`. `w`/`h` are `i32(grid.x)`/`i32(grid.y)`. -/
def cell_index (w h : Int) (cell : Int × Int) : Nat :=
  u32OfInt (((cell.2 + h).tmod h) * w + ((cell.1 + w).tmod w))

/-- WGSL `fn cell_active(x: i32, y: i32) -> u32`: reads
`cell_state_in[cell_index(vec2(x, y))]`. `I` is the `cell_state_in` buffer. -/
def cell_active (w h : Int) (I : Nat → Nat) (x y : Int) : Nat :=
  I (cell_index w h (x, y))

/-- u32 addition (wraps modulo `2 ^ 32`). -/
def u32add (a b : Nat) : Nat := (a + b) % 2 ^ 32

/-- The `active_neighbors` expression of `computeMain`: the chain of eight
`cell_active` reads combined by u32 addition, in source order. -/
def active_neighbors (w h : Int) (I : Nat → Nat) (x y : Int) : Nat :=
  u32add (u32add (u32add (u32add (u32add (u32add (u32add
    (cell_active w h I (x + 1) (y + 1))
    (cell_active w h I (x + 1) y))
    (cell_active w h I (x + 1) (y - 1)))
    (cell_active w h I x (y - 1)))
    (cell_active w h I (x - 1) (y - 1)))
    (cell_active w h I (x - 1) y))
    (cell_active w h I (x - 1) (y + 1)))
    (cell_active w h I x (y + 1))

/-- The value a single `computeMain` invocation with global id `(x, y)` writes
to `cell_state_out[cell_index(cell)]`: the `switch active_neighbors` with
`case 2u` keeping `cell_state_in[i]`, `case 3u` writing `1u`, and `default`
writing `0u`. -/
def computeMainValue (w h : Int) (I : Nat → Nat) (x y : Int) : Nat :=
  let n := active_neighbors w h I x y
  if n = 2 then I (cell_index w h (x, y))
  else if n = 3 then 1
  else 0

/-- Workgroups per axis: `(GRID_SIZE / WORKGROUP_SIZE) as u32` passed to
`dispatch_workgroups(workgroup_count, workgroup_count, 1)`. -/
def workgroup_count : Nat := GRID_SIZE / WORKGROUP_SIZE

/-- The set of global invocation ids of one transition dispatch:
`workgroup_count × workgroup_count` workgroups of `WORKGROUP_SIZE ×
WORKGROUP_SIZE` invocations; global id = workgroup id · tile size + local id.
The GPU runs them in an unspecified order; the list fixes one serialization,
which is harmless because the write targets are pairwise distinct (proved
below as `cell_index_inj_on_grid`). -/
def invocations : List (Nat × Nat) :=
  (List.range workgroup_count).flatMap fun wy =>
    (List.range workgroup_count).flatMap fun wx =>
      (List.range WORKGROUP_SIZE).flatMap fun ly =>
        (List.range WORKGROUP_SIZE).map fun lx =>
          (wx * WORKGROUP_SIZE + lx, wy * WORKGROUP_SIZE + ly)

/-- The buffer index one invocation writes: `cell_index(cell)` at the global
invocation id. -/
def writeIdx (p : Nat × Nat) : Nat :=
  cell_index 32 32 ((p.1 : Int), (p.2 : Int))

/-- The value one invocation writes, from the `switch` of `computeMain`. -/
def writeVal (I : Nat → Nat) (p : Nat × Nat) : Nat :=
  computeMainValue 32 32 I (p.1 : Int) (p.2 : Int)

/-- One full transition dispatch: every invocation reads only `cell_state_in`
(`I`, bound read-only at binding 1) and writes its cell of `cell_state_out`
(`O`, bound read-write at binding 2). The grid uniform holds `(GRID_SIZE,
GRID_SIZE) = (32, 32)`. -/
def runDispatch (I O : Nat → Nat) : Nat → Nat :=
  invocations.foldl
    (fun acc p => Function.update acc (writeIdx p) (writeVal I p)) O

example : cell_index 32 32 (0, 0) = 0 := by decide
example : cell_index 32 32 (-1, 0) = 31 := by decide
example : cell_index 32 32 (0, -1) = 31 * 32 := by decide
example : cell_index 32 32 (32, 5) = 5 * 32 := by decide
example : cell_index 32 32 (3, 2) = 2 * 32 + 3 := by decide

/-- On in-range coordinates the wraparound index is the row-major index. -/
lemma cell_index_id : ∀ x < 32, ∀ y < 32,
    cell_index 32 32 ((x : Nat), (y : Nat)) = y * 32 + x := by decide

/-- Every grid coordinate pair is covered by some invocation of the dispatch. -/
lemma mem_invocations {x y : Nat} (hx : x < 32) (hy : y < 32) :
    (x, y) ∈ invocations := by
  unfold invocations
  refine List.mem_flatMap.mpr ⟨y / 8, ?_, ?_⟩
  · simp only [List.mem_range, workgroup_count, GRID_SIZE, WORKGROUP_SIZE]
    omega
  refine List.mem_flatMap.mpr ⟨x / 8, ?_, ?_⟩
  · simp only [List.mem_range, workgroup_count, GRID_SIZE, WORKGROUP_SIZE]
    omega
  refine List.mem_flatMap.mpr ⟨y % 8, ?_, ?_⟩
  · simp only [List.mem_range, WORKGROUP_SIZE]
    omega
  refine List.mem_map.mpr ⟨x % 8, ?_, ?_⟩
  · simp only [List.mem_range, WORKGROUP_SIZE]
    omega
  simp only [WORKGROUP_SIZE, Prod.mk.injEq]
  omega

/-- Every invocation's global id lies in the 32 × 32 grid. -/
lemma invocations_lt : ∀ p ∈ invocations, p.1 < 32 ∧ p.2 < 32 := by
  intro p hp
  simp only [invocations, workgroup_count, GRID_SIZE, WORKGROUP_SIZE,
    List.mem_flatMap, List.mem_map, List.mem_range] at hp
  obtain ⟨wy, hwy, wx, hwx, ly, hly, lx, hlx, rfl⟩ := hp
  constructor <;> simp <;> omega

/-- Evaluating a fold of updates at an index no write targets. -/
lemma foldl_update_eq_of_ne (f g : Nat × Nat → Nat) :
    ∀ (l : List (Nat × Nat)) (O : Nat → Nat) (i : Nat),
      (∀ p ∈ l, f p ≠ i) →
      (l.foldl (fun acc p => Function.update acc (f p) (g p)) O) i = O i := by
  intro l
  induction l with
  | nil => intro O i _; rfl
  | cons q t ih =>
    intro O i h
    simp only [List.foldl_cons]
    rw [ih _ i (fun p hp => h p (List.mem_cons_of_mem q hp))]
    exact Function.update_noteq (Ne.symm (h q (List.mem_cons_self q t))) _ O

/-- Evaluating a fold of updates at the target of the unique write to it. -/
lemma foldl_update_eq_of_mem (f g : Nat × Nat → Nat) (p0 : Nat × Nat) :
    ∀ (l : List (Nat × Nat)) (O : Nat → Nat), p0 ∈ l →
      (∀ p ∈ l, f p = f p0 → p = p0) →
      (l.foldl (fun acc p => Function.update acc (f p) (g p)) O) (f p0) = g p0 := by
  intro l
  induction l with
  | nil => intro O hm _; cases hm
  | cons q t ih =>
    intro O hm hu
    simp only [List.foldl_cons]
    by_cases hqt : p0 ∈ t
    · exact ih _ hqt (fun p hp he => hu p (List.mem_cons_of_mem q hp) he)
    · have hq : p0 = q := by
        rcases List.mem_cons.mp hm with h | h
        · exact h
        · exact absurd h hqt
      subst hq
      rw [foldl_update_eq_of_ne f g t _ _ ?_]
      · exact Function.update_same _ _ _
      · intro p hp hc
        exact hqt (hu p (List.mem_cons_of_mem p0 hp) hc ▸ hp)

/-- Closed form of a transition dispatch: the output buffer holds, at every
in-range index `i`, the value computed by the invocation with global id
`(i mod 32, i div 32)`, and is untouched elsewhere. -/
lemma writeIdx_eq {p : Nat × Nat} (h1 : p.1 < 32) (h2 : p.2 < 32) :
    writeIdx p = p.2 * 32 + p.1 :=
  cell_index_id p.1 h1 p.2 h2

lemma runDispatch_eq (I O : Nat → Nat) (i : Nat) :
    runDispatch I O i =
      if i < 1024 then computeMainValue 32 32 I ((i % 32 : Nat)) ((i / 32 : Nat))
      else O i := by
  by_cases hi : i < 1024
  · simp only [hi, if_true]
    have hx : i % 32 < 32 := by omega
    have hy : i / 32 < 32 := by omega
    have hid : writeIdx (i % 32, i / 32) = i := by
      rw [writeIdx_eq hx hy]; omega
    have key := foldl_update_eq_of_mem writeIdx (writeVal I)
      (i % 32, i / 32) invocations O (mem_invocations hx hy) ?_
    · rw [hid] at key
      exact key
    · intro p hp he
      obtain ⟨h1, h2⟩ := invocations_lt p hp
      rw [writeIdx_eq h1 h2, writeIdx_eq hx hy] at he
      have : p.1 = i % 32 ∧ p.2 = i / 32 := by omega
      exact Prod.ext this.1 this.2
  · simp only [hi, if_false]
    apply foldl_update_eq_of_ne
    intro p hp
    obtain ⟨h1, h2⟩ := invocations_lt p hp
    rw [writeIdx_eq h1 h2]
    omega

/-- Modelled from the spec: the row-major index of a neighbor coordinate taken
modulo width/height (Euclidean `%`, which wraps negative indices into range),
for the program's 32 × 32 grid. -/
def wrapIndexSpec (a b : Int) : Nat :=
  (b % 32).toNat * 32 + (a % 32).toNat

/-- Modelled from the spec: the 8-neighbor sum of cell `(x, y)` over the input
buffer `I`, neighbor coordinates wrapped toroidally. -/
def neighborSumSpec (I : Nat → Nat) (x y : Nat) : Nat :=
  I (wrapIndexSpec ((x : Int) - 1) ((y : Int) - 1)) +
  I (wrapIndexSpec (x : Int) ((y : Int) - 1)) +
  I (wrapIndexSpec ((x : Int) + 1) ((y : Int) - 1)) +
  I (wrapIndexSpec ((x : Int) - 1) (y : Int)) +
  I (wrapIndexSpec ((x : Int) + 1) (y : Int)) +
  I (wrapIndexSpec ((x : Int) - 1) ((y : Int) + 1)) +
  I (wrapIndexSpec (x : Int) ((y : Int) + 1)) +
  I (wrapIndexSpec ((x : Int) + 1) ((y : Int) + 1))

/-- The shader's truncated-remainder index computation agrees with Euclidean
wrapping whenever the coordinates are at least `-32`. -/
lemma cell_index_emod (a b : Int) (ha : -32 ≤ a) (hb : -32 ≤ b) :
    cell_index 32 32 (a, b) = wrapIndexSpec a b := by
  unfold cell_index u32OfInt wrapIndexSpec
  rw [Int.tmod_eq_emod (by omega) (by norm_num),
    Int.tmod_eq_emod (by omega) (by norm_num)]
  have h1 : (a + 32) % 32 = a % 32 := by simp
  have h2 : (b + 32) % 32 = b % 32 := by simp
  rw [h1, h2]
  have ha1 : 0 ≤ a % 32 := Int.emod_nonneg a (by norm_num)
  have ha2 : a % 32 < 32 := Int.emod_lt_of_pos a (by norm_num)
  have hb1 : 0 ≤ b % 32 := Int.emod_nonneg b (by norm_num)
  have hb2 : b % 32 < 32 := Int.emod_lt_of_pos b (by norm_num)
  omega

lemma cell_active_eq (I : Nat → Nat) (a b : Int) (ha : -32 ≤ a) (hb : -32 ≤ b) :
    cell_active 32 32 I a b = I (wrapIndexSpec a b) := by
  unfold cell_active
  rw [cell_index_emod a b ha hb]

/-- For 0/1-valued buffers the shader's wrapping-u32 neighbor count equals the
mathematical 8-neighbor sum. -/
lemma active_neighbors_eq_spec (I : Nat → Nat) (hI : ∀ j, I j ≤ 1)
    (x y : Nat) (hx : x < 32) (hy : y < 32) :
    active_neighbors 32 32 I (x : Int) (y : Int) = neighborSumSpec I x y := by
  have hcollapse : active_neighbors 32 32 I (x : Int) (y : Int) =
      (cell_active 32 32 I ((x : Int) + 1) ((y : Int) + 1) +
       cell_active 32 32 I ((x : Int) + 1) (y : Int) +
       cell_active 32 32 I ((x : Int) + 1) ((y : Int) - 1) +
       cell_active 32 32 I (x : Int) ((y : Int) - 1) +
       cell_active 32 32 I ((x : Int) - 1) ((y : Int) - 1) +
       cell_active 32 32 I ((x : Int) - 1) (y : Int) +
       cell_active 32 32 I ((x : Int) - 1) ((y : Int) + 1) +
       cell_active 32 32 I (x : Int) ((y : Int) + 1)) % 2 ^ 32 := by
    simp only [active_neighbors, u32add, Nat.mod_add_mod]
  rw [hcollapse]
  rw [cell_active_eq I _ _ (by omega) (by omega),
    cell_active_eq I _ _ (by omega) (by omega),
    cell_active_eq I _ _ (by omega) (by omega),
    cell_active_eq I _ _ (by omega) (by omega),
    cell_active_eq I _ _ (by omega) (by omega),
    cell_active_eq I _ _ (by omega) (by omega),
    cell_active_eq I _ _ (by omega) (by omega),
    cell_active_eq I _ _ (by omega) (by omega)]
  rw [Nat.mod_eq_of_lt (by
    have h1 := hI (wrapIndexSpec ((x : Int) + 1) ((y : Int) + 1))
    have h2 := hI (wrapIndexSpec ((x : Int) + 1) (y : Int))
    have h3 := hI (wrapIndexSpec ((x : Int) + 1) ((y : Int) - 1))
    have h4 := hI (wrapIndexSpec (x : Int) ((y : Int) - 1))
    have h5 := hI (wrapIndexSpec ((x : Int) - 1) ((y : Int) - 1))
    have h6 := hI (wrapIndexSpec ((x : Int) - 1) (y : Int))
    have h7 := hI (wrapIndexSpec ((x : Int) - 1) ((y : Int) + 1))
    have h8 := hI (wrapIndexSpec (x : Int) ((y : Int) + 1))
    omega)]
  unfold neighborSumSpec
  omega

/-- C1: for every 0/1-valued grid configuration and every cell index `i`, one
transition step writes output `O[i]` as a function of the 8-neighbor sum of the
input: sum 2 keeps `I[i]`, sum 3 writes 1, anything else writes 0 — the
pointwise 2/3-neighbor Game of Life rule with toroidal wraparound. -/
theorem C1_transition_rule (I O : Nat → Nat) (hI : ∀ j, I j ≤ 1) (i : Nat)
    (hi : i < N) :
    runDispatch I O i =
      if neighborSumSpec I (i % 32) (i / 32) = 2 then I i
      else if neighborSumSpec I (i % 32) (i / 32) = 3 then 1
      else 0 := by
  have hi' : i < 1024 := hi
  rw [runDispatch_eq]
  simp only [hi', if_true]
  unfold computeMainValue
  rw [active_neighbors_eq_spec I hI (i % 32) (i / 32) (by omega) (by omega)]
  have hxy : cell_index 32 32 (((i % 32 : Nat) : Int), ((i / 32 : Nat) : Int)) = i := by
    rw [cell_index_id _ (by omega) _ (by omega)]
    omega
  rw [hxy]

/-- The all-dead buffer (used to instantiate universally quantified claims). -/
def zeroBuf : Nat → Nat := fun _ => 0

/-- Witness for C1 at a concrete buffer and cell index. -/
theorem C1_transition_rule_witness :
    (5 : Nat) < N ∧
    runDispatch zeroBuf zeroBuf 5 =
      (if neighborSumSpec zeroBuf (5 % 32) (5 / 32) = 2 then zeroBuf 5
       else if neighborSumSpec zeroBuf (5 % 32) (5 / 32) = 3 then 1
       else 0) :=
  ⟨by decide, C1_transition_rule zeroBuf zeroBuf (fun _ => Nat.zero_le 1) 5 (by decide)⟩

/-- The buffer indices `computeMain` reads from `cell_state_in` for the cell at
`(x, y)`, in source order (the eight `cell_active` calls). -/
def neighborReadIdx (w h : Int) (x y : Int) : List Nat :=
  [cell_index w h (x + 1, y + 1), cell_index w h (x + 1, y),
   cell_index w h (x + 1, y - 1), cell_index w h (x, y - 1),
   cell_index w h (x - 1, y - 1), cell_index w h (x - 1, y),
   cell_index w h (x - 1, y + 1), cell_index w h (x, y + 1)]

/-- General closed form of `cell_index` for any grid size whose cell count fits
in u32 and any coordinates not below `-width`/`-height`: truncated remainder of
the shifted coordinate equals Euclidean wrapping. -/
lemma cell_index_general (w h : Nat) (hw : 0 < w) (hh : 0 < h)
    (hwh : w * h < 2 ^ 32) (a b : Int) (ha : -(w : Int) ≤ a) (hb : -(h : Int) ≤ b) :
    cell_index (w : Int) (h : Int) (a, b) = (b % (h : Int)).toNat * w + (a % (w : Int)).toNat := by
  unfold cell_index u32OfInt
  rw [Int.tmod_eq_emod (by omega) (by omega), Int.tmod_eq_emod (by omega) (by omega)]
  have h1 : (a + (w : Int)) % (w : Int) = a % (w : Int) := by simp
  have h2 : (b + (h : Int)) % (h : Int) = b % (h : Int) := by simp
  rw [h1, h2]
  have hw' : ((w : Int)) ≠ 0 := by omega
  have hh' : ((h : Int)) ≠ 0 := by omega
  have ha1 : 0 ≤ a % (w : Int) := Int.emod_nonneg a hw'
  have ha2 : a % (w : Int) < (w : Int) := Int.emod_lt_of_pos a (by omega)
  have hb1 : 0 ≤ b % (h : Int) := Int.emod_nonneg b hh'
  have hb2 : b % (h : Int) < (h : Int) := Int.emod_lt_of_pos b (by omega)
  have hmul : b % (h : Int) * (w : Int) ≤ ((h : Int) - 1) * (w : Int) :=
    mul_le_mul_of_nonneg_right (by omega) (by omega)
  have hlt : b % (h : Int) * (w : Int) + a % (w : Int) < (w : Int) * (h : Int) := by
    nlinarith
  have hbig : ((w : Int)) * (h : Int) ≤ 2 ^ 32 := by exact_mod_cast hwh.le
  have h0 : 0 ≤ b % (h : Int) * (w : Int) + a % (w : Int) := by nlinarith
  rw [Int.emod_eq_of_lt h0 (lt_of_lt_of_le hlt hbig)]
  have hsplit : b % (h : Int) * (w : Int) + a % (w : Int) =
      (((b % (h : Int)).toNat * w + (a % (w : Int)).toNat : Nat) : Int) := by
    push_cast
    rw [Int.toNat_of_nonneg hb1, Int.toNat_of_nonneg ha1]
  rw [hsplit, Int.toNat_natCast]

lemma emod_cast_eq {x w : Nat} (hx : x < w) :
    ((x : Int)) % ((w : Int)) = (x : Int) :=
  Int.emod_eq_of_lt (by omega) (by exact_mod_cast hx)

lemma neg_one_emod (w : Nat) (hw : 0 < w) :
    ((-1 : Int)) % ((w : Int)) = (w : Int) - 1 := by
  have h1 : ((-1 : Int) + (w : Int)) % (w : Int) = (-1 : Int) % (w : Int) := by simp
  rw [← h1, Int.emod_eq_of_lt (by omega) (by omega)]
  omega

/-- C2: neighbor counting is toroidal — a cell at column 0 reads the cell at
column `w - 1` of the same row among its 8 neighbors and vice versa, and the
same for rows 0 and `h - 1`, because neighbor coordinates are wrapped modulo
width/height with negative indices brought into range. -/
theorem C2_toroidal_neighbors (w h : Nat) (hw : 0 < w) (hh : 0 < h)
    (hwh : w * h < 2 ^ 32) (x y : Nat) (hx : x < w) (hy : y < h) :
    (y * w + (w - 1)) ∈ neighborReadIdx (w : Int) (h : Int) 0 (y : Int) ∧
    (y * w) ∈ neighborReadIdx (w : Int) (h : Int) ((w : Int) - 1) (y : Int) ∧
    ((h - 1) * w + x) ∈ neighborReadIdx (w : Int) (h : Int) (x : Int) 0 ∧
    x ∈ neighborReadIdx (w : Int) (h : Int) (x : Int) ((h : Int) - 1) := by
  have hyh := emod_cast_eq hy
  have hxw := emod_cast_eq hx
  refine ⟨?_, ?_, ?_, ?_⟩
  · -- column 0 reads column w-1 (the `cell_active(x - 1, y)` call)
    have he : cell_index (w : Int) (h : Int) ((0 : Int) - 1, (y : Int)) =
        y * w + (w - 1) := by
      rw [show ((0 : Int) - 1) = (-1 : Int) by ring,
        cell_index_general w h hw hh hwh _ _ (by omega) (by omega),
        hyh, neg_one_emod w hw, Int.toNat_natCast]
      have hc : ((w : Int) - 1).toNat = w - 1 := by omega
      rw [hc]
    simp only [neighborReadIdx, List.mem_cons, List.not_mem_nil, or_false]
    exact Or.inr (Or.inr (Or.inr (Or.inr (Or.inr (Or.inl he.symm)))))
  · -- column w-1 reads column 0 (the `cell_active(x + 1, y)` call)
    have he : cell_index (w : Int) (h : Int) ((w : Int) - 1 + 1, (y : Int)) =
        y * w := by
      rw [show ((w : Int) - 1 + 1) = (w : Int) by ring,
        cell_index_general w h hw hh hwh _ _ (by omega) (by omega),
        hyh, Int.emod_self, Int.toNat_natCast, Int.toNat_zero]
      omega
    simp only [neighborReadIdx, List.mem_cons, List.not_mem_nil, or_false]
    exact Or.inr (Or.inl he.symm)
  · -- row 0 reads row h-1 (the `cell_active(x, y - 1)` call)
    have he : cell_index (w : Int) (h : Int) ((x : Int), (0 : Int) - 1) =
        (h - 1) * w + x := by
      rw [show ((0 : Int) - 1) = (-1 : Int) by ring,
        cell_index_general w h hw hh hwh _ _ (by omega) (by omega),
        hxw, neg_one_emod h hh, Int.toNat_natCast]
      have hc : ((h : Int) - 1).toNat = h - 1 := by omega
      rw [hc]
    simp only [neighborReadIdx, List.mem_cons, List.not_mem_nil, or_false]
    exact Or.inr (Or.inr (Or.inr (Or.inl he.symm)))
  · -- row h-1 reads row 0 (the `cell_active(x, y + 1)` call)
    have he : cell_index (w : Int) (h : Int) ((x : Int), (h : Int) - 1 + 1) =
        x := by
      rw [show ((h : Int) - 1 + 1) = (h : Int) by ring,
        cell_index_general w h hw hh hwh _ _ (by omega) (by omega),
        hxw, Int.emod_self, Int.toNat_natCast, Int.toNat_zero]
      omega
    simp only [neighborReadIdx, List.mem_cons, List.not_mem_nil, or_false]
    exact Or.inr (Or.inr (Or.inr (Or.inr (Or.inr (Or.inr (Or.inr he.symm))))))

/-- Witness for C2 at the program's 32 × 32 grid, cell (0, 0). -/
theorem C2_toroidal_neighbors_witness :
    (0 < 32 ∧ 32 * 32 < 2 ^ 32) ∧
    ((0 * 32 + (32 - 1)) ∈ neighborReadIdx (32 : Int) (32 : Int) 0 (0 : Int) ∧
     (0 * 32) ∈ neighborReadIdx (32 : Int) (32 : Int) ((32 : Int) - 1) (0 : Int) ∧
     ((32 - 1) * 32 + 0) ∈ neighborReadIdx (32 : Int) (32 : Int) (0 : Int) 0 ∧
     (0 : Nat) ∈ neighborReadIdx (32 : Int) (32 : Int) (0 : Int) ((32 : Int) - 1)) :=
  ⟨⟨by decide, by decide⟩,
    C2_toroidal_neighbors 32 32 (by decide) (by decide) (by decide) 0 0
      (by decide) (by decide)⟩

/-- The wraparound index is always within the `w * h`-element buffers for any
coordinate not below `-width`/`-height`. -/
lemma cell_index_lt (w h : Nat) (hw : 0 < w) (hh : 0 < h) (hwh : w * h < 2 ^ 32)
    (a b : Int) (ha : -(w : Int) ≤ a) (hb : -(h : Int) ≤ b) :
    cell_index (w : Int) (h : Int) (a, b) < w * h := by
  rw [cell_index_general w h hw hh hwh a b ha hb]
  have hb2 : (b % (h : Int)).toNat ≤ h - 1 := by
    have h1 := Int.emod_lt_of_pos b (show (0 : Int) < (h : Int) by omega)
    have h2 := Int.emod_nonneg b (show ((h : Int)) ≠ 0 by omega)
    omega
  have ha2 : (a % (w : Int)).toNat < w := by
    have h1 := Int.emod_lt_of_pos a (show (0 : Int) < (w : Int) by omega)
    have h2 := Int.emod_nonneg a (show ((w : Int)) ≠ 0 by omega)
    omega
  calc (b % (h : Int)).toNat * w + (a % (w : Int)).toNat
      ≤ (h - 1) * w + (a % (w : Int)).toNat :=
        Nat.add_le_add_right (Nat.mul_le_mul_right w hb2) _
    _ < (h - 1) * w + w := by omega
    _ ≤ h * w := by
        have he : (h - 1) * w + w = ((h - 1) + 1) * w := by ring
        have hs : (h - 1) + 1 = h := by omega
        rw [he, hs]
    _ = w * h := Nat.mul_comm h w

/-- C10 (implicit): for every compute invocation of the dispatch (global id
coordinates in `[0, 32)`) and every neighbor offset in `[-1, 1]²`, `cell_index`
yields an index below `N = 1024`, so all eight `cell_state_in` reads and the
single `cell_state_out` write (offset `(0, 0)`) are within buffer bounds. -/
theorem C10_index_in_bounds (x y : Nat) (hx : x < 32) (hy : y < 32)
    (dx dy : Int) (hdx : -1 ≤ dx ∧ dx ≤ 1) (hdy : -1 ≤ dy ∧ dy ≤ 1) :
    cell_index 32 32 ((x : Int) + dx, (y : Int) + dy) < N := by
  have := cell_index_lt 32 32 (by decide) (by decide) (by decide)
    ((x : Int) + dx) ((y : Int) + dy) (by omega) (by omega)
  exact this

/-- Witness for C10 at the top-left invocation reading its up-left neighbor. -/
theorem C10_index_in_bounds_witness :
    (0 : Nat) < 32 ∧ cell_index 32 32 ((0 : Int) + -1, (0 : Int) + -1) < N :=
  ⟨by decide,
    C10_index_in_bounds 0 0 (by decide) (by decide) (-1) (-1)
      ⟨by decide, by decide⟩ ⟨by decide, by decide⟩⟩

/-- The initial seeding of `cell_state_array`: `*cell = dist.sample(&mut rng)
as u32` — a Bernoulli(0.6) draw coerced `bool as u32`, so 1 (alive) or 0
(dead). The randomness source is abstracted as a Boolean sequence `r`. -/
def seedBuffer (r : Nat → Bool) : Nat → Nat := fun i => if r i then 1 else 0

/-- C6: every cell value is 0 or 1 — the seeding stores only `bool as u32`
values, and on a 0/1-valued input buffer every value the transition dispatch
writes is `I[i]`, `1`, or `0`, hence again 0 or 1. -/
theorem C6_cell_values :
    (∀ (r : Nat → Bool) (i : Nat), seedBuffer r i = 0 ∨ seedBuffer r i = 1) ∧
    (∀ (I O : Nat → Nat), (∀ j, I j = 0 ∨ I j = 1) →
      ∀ i < N, runDispatch I O i = 0 ∨ runDispatch I O i = 1) := by
  constructor
  · intro r i
    unfold seedBuffer
    by_cases h : r i <;> simp [h]
  · intro I O hI i hi
    have hi' : i < 1024 := hi
    rw [runDispatch_eq, if_pos hi']
    simp only [computeMainValue]
    split_ifs
    · exact hI _
    · right; rfl
    · left; rfl

/-- Witness for C6 at a concrete random draw and a concrete dispatch cell. -/
theorem C6_cell_values_witness :
    (seedBuffer (fun _ => true) 7 = 0 ∨ seedBuffer (fun _ => true) 7 = 1) ∧
    (runDispatch zeroBuf zeroBuf 3 = 0 ∨ runDispatch zeroBuf zeroBuf 3 = 1) :=
  ⟨C6_cell_values.1 (fun _ => true) 7,
    C6_cell_values.2 zeroBuf zeroBuf (fun _ => Or.inl rfl) 3 (by decide)⟩

/-- A bind group as built in `src/main.rs`: which of the two
`cell_state_storage` buffers is bound at binding 1 (`cell_state_in`, read-only
storage, also the render stage's `cell_state`) and at binding 2
(`cell_state_out`, read-write storage). Binding 0 is the grid uniform. -/
structure BindGroup where
  input : Fin 2
  output : Fin 2
deriving DecidableEq

/-- The `bind_group` array: group A binds state buffer 0 at binding 1 and
buffer 1 at binding 2; group B the reverse. -/
def bind_group : Fin 2 → BindGroup := ![⟨0, 1⟩, ⟨1, 0⟩]

/-- The mutable state of the event loop: the two storage buffers and the
`step` counter (`let mut step = 0`, always 0 or 1 since it is only updated by
`step = (step + 1) % 2`). -/
structure SimState where
  bufs : Fin 2 → (Nat → Nat)
  step : Fin 2

/-- The compute pass of one tick: `set_bind_group(0, &bind_group[step], ..)`
then `dispatch_workgroups`, i.e. the output binding's buffer is replaced by
the dispatch result computed from the input binding's buffer. -/
def dispatchPass (s : SimState) : SimState :=
  { s with
    bufs := Function.update s.bufs (bind_group s.step).output
      (runDispatch (s.bufs (bind_group s.step).input)
        (s.bufs (bind_group s.step).output)) }

/-- The parity flip `step = (step + 1) % 2` (addition in `Fin 2` is already
modulo 2). -/
def flipStep (s : SimState) : SimState := { s with step := s.step + 1 }

/-- One tick of the `ResumeTimeReached` handler, as far as simulation state is
concerned: compute dispatch with `bind_group[step]`, then the parity flip. The
render pass afterwards only reads. -/
def tick (s : SimState) : SimState := flipStep (dispatchPass s)

/-- The buffer the render pass of this tick reads: binding 1 of
`bind_group[step]` evaluated after the flip. -/
def renderSource (s : SimState) : Nat → Nat := s.bufs (bind_group s.step).input

/-- State after `n` ticks. -/
def tickN : Nat → SimState → SimState
  | 0, s => s
  | n + 1, s => tick (tickN n s)

/-- The buffer index the transition dispatch fired from state `s` writes. -/
def dispatchTargetIdx (s : SimState) : Fin 2 := (bind_group s.step).output

/-- The contents the transition dispatch fired from state `s` writes there. -/
def dispatchResult (s : SimState) : Nat → Nat :=
  runDispatch (s.bufs (bind_group s.step).input) (s.bufs (bind_group s.step).output)

lemma bind_group_input (p : Fin 2) : (bind_group p).input = p := by
  fin_cases p <;> rfl

lemma bind_group_output (p : Fin 2) : (bind_group p).output = 1 - p := by
  fin_cases p <;> rfl

lemma bind_group_input_ne_output (p : Fin 2) :
    (bind_group p).input ≠ (bind_group p).output := by
  fin_cases p <;> decide

lemma bind_group_succ_input (p : Fin 2) :
    (bind_group (p + 1)).input = (bind_group p).output := by
  fin_cases p <;> decide

/-- C4: double-buffer non-aliasing — the dispatch output is a function of the
input binding only (it never reads the output buffer's prior contents at any
cell), the input binding's buffer is bit-for-bit unchanged by the dispatch,
and no buffer other than the designated output binding changes. -/
theorem C4_double_buffer_no_alias :
    (∀ (I O O' : Nat → Nat) (i : Nat), i < N →
      runDispatch I O i = runDispatch I O' i) ∧
    (∀ s : SimState,
      (dispatchPass s).bufs (bind_group s.step).input =
        s.bufs (bind_group s.step).input) ∧
    (∀ (s : SimState) (q : Fin 2), q ≠ (bind_group s.step).output →
      (dispatchPass s).bufs q = s.bufs q) := by
  refine ⟨?_, ?_, ?_⟩
  · intro I O O' i hi
    have hi' : i < 1024 := hi
    rw [runDispatch_eq, runDispatch_eq, if_pos hi', if_pos hi']
  · intro s
    exact Function.update_noteq (bind_group_input_ne_output s.step) _ _
  · intro s q hq
    exact Function.update_noteq hq _ _

/-- Concrete simulation state used by witnesses. -/
def initState : SimState := { bufs := fun _ => zeroBuf, step := 0 }

/-- Witness for C4 at concrete buffers and the initial state. -/
theorem C4_double_buffer_no_alias_witness :
    runDispatch zeroBuf zeroBuf 0 = runDispatch zeroBuf (fun _ => 1) 0 ∧
    (dispatchPass initState).bufs (bind_group initState.step).input =
      initState.bufs (bind_group initState.step).input ∧
    (dispatchPass initState).bufs 0 = initState.bufs 0 :=
  ⟨C4_double_buffer_no_alias.1 zeroBuf zeroBuf (fun _ => 1) 0 (by decide),
    C4_double_buffer_no_alias.2.1 initState,
    C4_double_buffer_no_alias.2.2 initState 0 (by decide)⟩

/-- After one tick the render pass reads exactly what that tick's dispatch
wrote. -/
lemma renderSource_tick (s : SimState) : renderSource (tick s) = dispatchResult s := by
  unfold renderSource tick flipStep dispatchPass dispatchResult
  simp only
  rw [bind_group_succ_input s.step]
  exact Function.update_same _ _ _

/-- C3: parity consistency — for every `n ≥ 1`, after `n` ticks the buffer the
render stage reads is the buffer index the `n`-th dispatch wrote, with exactly
its written contents; and `bind_group[p]` always wires buffer `p` as input and
buffer `1 - p` as output. -/
theorem C3_parity_consistency (s0 : SimState) (n : Nat) (hn : 1 ≤ n) :
    (bind_group (tickN n s0).step).input = dispatchTargetIdx (tickN (n - 1) s0) ∧
    renderSource (tickN n s0) = dispatchResult (tickN (n - 1) s0) ∧
    (∀ p : Fin 2, (bind_group p).input = p ∧ (bind_group p).output = 1 - p) := by
  obtain ⟨m, rfl⟩ : ∃ m, n = m + 1 := ⟨n - 1, by omega⟩
  have hm : m + 1 - 1 = m := by omega
  rw [hm]
  have ht : tickN (m + 1) s0 = tick (tickN m s0) := rfl
  rw [ht]
  refine ⟨?_, renderSource_tick _, fun p => ⟨bind_group_input p, bind_group_output p⟩⟩
  show (bind_group (flipStep (dispatchPass (tickN m s0))).step).input = _
  unfold flipStep dispatchTargetIdx
  simp only
  rw [bind_group_succ_input]
  rfl

/-- Witness for C3 after the first tick from the program's initial state. -/
theorem C3_parity_consistency_witness :
    (1 : Nat) ≤ 1 ∧
    ((bind_group (tickN 1 initState).step).input = dispatchTargetIdx (tickN 0 initState) ∧
     renderSource (tickN 1 initState) = dispatchResult (tickN 0 initState) ∧
     (∀ p : Fin 2, (bind_group p).input = p ∧ (bind_group p).output = 1 - p)) :=
  ⟨by decide, (C3_parity_consistency initState 1 (by decide)).1,
    (C3_parity_consistency initState 1 (by decide)).2.1,
    (C3_parity_consistency initState 1 (by decide)).2.2⟩

/-- A horizontal blinker: three consecutive live cells in row 16, columns
15–17, on an otherwise dead 32 × 32 grid (indices 527, 528, 529) — far from
every edge, so the pattern cannot interact with itself through wraparound. -/
def blinkerH : Nat → Nat := fun i => if i = 527 ∨ i = 528 ∨ i = 529 then 1 else 0

/-- The same blinker in vertical orientation: column 16, rows 15–17 (indices
496, 528, 560). -/
def blinkerV : Nat → Nat := fun i => if i = 496 ∨ i = 528 ∨ i = 560 then 1 else 0

set_option maxRecDepth 10000 in
lemma blinkerH_step : ∀ i < 1024,
    computeMainValue 32 32 blinkerH ((i % 32 : Nat)) ((i / 32 : Nat)) = blinkerV i := by
  decide

set_option maxRecDepth 10000 in
lemma blinkerV_step : ∀ i < 1024,
    computeMainValue 32 32 blinkerV ((i % 32 : Nat)) ((i / 32 : Nat)) = blinkerH i := by
  decide

/-- A `computeMain` invocation only reads `cell_state_in` at indices below
1024, so its output only depends on those cells of the input. -/
lemma computeMainValue_congr (I J : Nat → Nat) (x y : Nat)
    (hx : x < 32) (hy : y < 32) (hIJ : ∀ j, j < 1024 → I j = J j) :
    computeMainValue 32 32 I ((x : Nat)) ((y : Nat)) =
      computeMainValue 32 32 J ((x : Nat)) ((y : Nat)) := by
  have hr : ∀ (a b : Int), -32 ≤ a → -32 ≤ b →
      I (cell_index 32 32 (a, b)) = J (cell_index 32 32 (a, b)) := by
    intro a b ha hb
    exact hIJ _ (cell_index_lt 32 32 (by decide) (by decide) (by decide) a b ha hb)
  unfold computeMainValue active_neighbors cell_active
  rw [hr _ _ (by omega) (by omega), hr _ _ (by omega) (by omega),
    hr _ _ (by omega) (by omega), hr _ _ (by omega) (by omega),
    hr _ _ (by omega) (by omega), hr _ _ (by omega) (by omega),
    hr _ _ (by omega) (by omega), hr _ _ (by omega) (by omega),
    hr _ _ (by omega) (by omega)]

/-- C5: on the otherwise-dead 32 × 32 grid, one transition dispatch takes the
horizontal blinker to the vertical one, the next takes the vertical one back
to the horizontal one, and two consecutive dispatches (the second reading the
first's output) reproduce the original configuration on all `N` cells —
whatever the prior contents `O`, `O'` of the two output buffers. -/
theorem C5_blinker_oscillates (O O' : Nat → Nat) :
    (∀ i < N, runDispatch blinkerH O i = blinkerV i) ∧
    (∀ i < N, runDispatch blinkerV O' i = blinkerH i) ∧
    (∀ i < N, runDispatch (runDispatch blinkerH O) O' i = blinkerH i) := by
  refine ⟨?_, ?_, ?_⟩
  · intro i hi
    have hi' : i < 1024 := hi
    rw [runDispatch_eq, if_pos hi']
    exact blinkerH_step i hi'
  · intro i hi
    have hi' : i < 1024 := hi
    rw [runDispatch_eq, if_pos hi']
    exact blinkerV_step i hi'
  · intro i hi
    have hi' : i < 1024 := hi
    rw [runDispatch_eq, if_pos hi']
    rw [computeMainValue_congr (runDispatch blinkerH O) blinkerV (i % 32) (i / 32)
      (by omega) (by omega) (fun j hj => by
        rw [runDispatch_eq, if_pos hj]; exact blinkerH_step j hj)]
    exact blinkerV_step i hi'

/-- Witness for C5 at cell 528 (the blinker's center). -/
theorem C5_blinker_oscillates_witness :
    (528 : Nat) < N ∧
    runDispatch blinkerH zeroBuf 528 = blinkerV 528 ∧
    runDispatch blinkerV zeroBuf 528 = blinkerH 528 ∧
    runDispatch (runDispatch blinkerH zeroBuf) zeroBuf 528 = blinkerH 528 :=
  ⟨by decide,
    (C5_blinker_oscillates zeroBuf zeroBuf).1 528 (by decide),
    (C5_blinker_oscillates zeroBuf zeroBuf).2.1 528 (by decide),
    (C5_blinker_oscillates zeroBuf zeroBuf).2.2 528 (by decide)⟩

/-- The externally visible operations of one `ResumeTimeReached` arm of the
event loop, in the order the source performs them. `Fin 2` arguments record
which bind group a pass is recorded with. -/
inductive TickAction where
  | scheduleNext (nanos : Nat)
  | dispatchCompute (bg : Fin 2)
  | flipParity
  | acquireFrame
  | recordRender (bg : Fin 2)
  | submit
  | present
deriving DecidableEq

/-- The operation sequence of one successful tick entered with parity `p`,
transliterated from the `ResumeTimeReached` arm: `set_wait_until(now +
UPDATE_INTERVAL)` first, then the compute pass with `bind_group[step]`, the
`step = (step + 1) % 2` flip, `get_current_texture()`, the render pass with
`bind_group[step]` (post-flip), one `queue.submit`, and `frame.present()`. -/
def tickTrace (p : Fin 2) : List TickAction :=
  [.scheduleNext UPDATE_INTERVAL_NANOS, .dispatchCompute p, .flipParity,
   .acquireFrame, .recordRender (p + 1), .submit, .present]

/-- Modelled from the spec: the §4.4 order — (1) dispatch, (2) flip,
(3) acquire, (4) render post-flip, (5) submit, (6) present, (7) schedule the
next tick at now + 200 ms. -/
def claimedTickTrace (p : Fin 2) : List TickAction :=
  [.dispatchCompute p, .flipParity, .acquireFrame, .recordRender (p + 1),
   .submit, .present, .scheduleNext UPDATE_INTERVAL_NANOS]

/-- C7 counterexample: the handler's actual operation order is not the claimed
one — scheduling the next tick is the first thing the handler does, not the
last. -/
theorem C7_tick_order_counterexample : tickTrace 0 ≠ claimedTickTrace 0 := by
  decide

/-- C7 (amended): on every tick the handler first schedules the next tick at
now + 200 ms, and then performs steps (1)–(6) exactly in the claimed order:
dispatch with `BindingPair[parity]`, flip parity, acquire the surface image,
record the render pass with `BindingPair[parity]` post-flip, submit once,
present. -/
theorem C7_tick_order (p : Fin 2) :
    tickTrace p =
      TickAction.scheduleNext UPDATE_INTERVAL_NANOS :: (claimedTickTrace p).dropLast ∧
    UPDATE_INTERVAL_NANOS = 200 * 1000000 :=
  ⟨rfl, rfl⟩

/-- One run of the tick handler given the acquisition outcome `acq` of
`surface.get_current_texture()`: on `None` the `.expect("Current texture not
found")` panics, aborting the process — the handler has by then only
scheduled, dispatched, flipped and attempted the acquisition, and no retry,
render, submit or present happens; on `Some` the full trace runs. -/
def runTick (p : Fin 2) (acq : Option Unit) : List TickAction × Except String Unit :=
  match acq with
  | none =>
      ([.scheduleNext UPDATE_INTERVAL_NANOS, .dispatchCompute p, .flipParity,
        .acquireFrame], .error "Current texture not found")
  | some _ => (tickTrace p, .ok ())

/-- C9: a failed per-frame image acquisition is fatal for the whole process:
the tick ends in the panic error, acquisition is attempted exactly once (no
retry), and no render, submit or present of any frame happens (no frame
skip-and-continue): the failure propagates to termination. -/
theorem C9_acquire_failure_fatal (p : Fin 2) (acq : Option Unit) (h : acq = none) :
    (runTick p acq).2 = Except.error "Current texture not found" ∧
    (runTick p acq).1.count TickAction.acquireFrame = 1 ∧
    TickAction.recordRender (p + 1) ∉ (runTick p acq).1 ∧
    TickAction.submit ∉ (runTick p acq).1 ∧
    TickAction.present ∉ (runTick p acq).1 := by
  subst h
  fin_cases p <;> exact ⟨rfl, by decide, by decide, by decide, by decide⟩

/-- Witness for C9 at parity 0. -/
theorem C9_acquire_failure_fatal_witness :
    (runTick 0 none).2 = Except.error "Current texture not found" ∧
    (runTick 0 none).1.count TickAction.acquireFrame = 1 ∧
    TickAction.recordRender (0 + 1) ∉ (runTick 0 none).1 ∧
    TickAction.submit ∉ (runTick 0 none).1 ∧
    TickAction.present ∉ (runTick 0 none).1 :=
  C9_acquire_failure_fatal 0 none rfl

/-- WGSL `trunc` toward zero, on the rational model of f32 values. -/
def qtrunc (x : ℚ) : ℚ := if 0 ≤ x then (⌊x⌋ : ℚ) else (⌈x⌉ : ℚ)

/-- WGSL float remainder `x % y = x - y * trunc(x / y)`. -/
def qfmod (x y : ℚ) : ℚ := x - y * qtrunc (x / y)

/-- WGSL `floor` on the rational model. -/
def qfloor (x : ℚ) : ℚ := (⌊x⌋ : ℚ)

/-- The `VertexOutput` struct of the render shader: clip position and the
interpolated `@location(0) cell` value handed to the fragment stage. -/
structure VertexOutput where
  pos : ℚ × ℚ × ℚ × ℚ
  cell : ℚ × ℚ

/-- WGSL `vertexMain`, with the grid uniform at its program value `(32, 32)`:
`cell = vec2f(i % grid.x, floor(i / grid.x))`, `state =
f32(cell_state[instance])`, `cell_offset = cell / grid * 2`, `grid_pos =
(pos * state + 1) / grid - 1 + cell_offset`. Float arithmetic is modelled over
`ℚ`; every operation the stated properties depend on (remainder and floor of
small integers, division by the power of two 32, scaling by a 0/1 state) is
exact in f32 as well, and the quad corner coordinates stay universally
quantified. -/
def vertexMain (cell_state : Nat → Nat) (pos : ℚ × ℚ) (inst : Nat) : VertexOutput :=
  let i : ℚ := (inst : ℚ)
  let cell : ℚ × ℚ := (qfmod i 32, qfloor (i / 32))
  let state : ℚ := ((cell_state inst : Nat) : ℚ)
  let cell_offset : ℚ × ℚ := (cell.1 / 32 * 2, cell.2 / 32 * 2)
  let grid_pos : ℚ × ℚ :=
    ((pos.1 * state + 1) / 32 - 1 + cell_offset.1,
     (pos.2 * state + 1) / 32 - 1 + cell_offset.2)
  { pos := (grid_pos.1, grid_pos.2, 0, 1), cell := cell }

/-- WGSL `fragmentMain`: `c = input.cell / grid`, output `vec4f(c, 1 - c.x,
1)`, i.e. red/green are the normalized cell coordinate, blue is one minus its
x component, alpha 1. -/
def fragmentMain (cellIn : ℚ × ℚ) : ℚ × ℚ × ℚ × ℚ :=
  let c : ℚ × ℚ := (cellIn.1 / 32, cellIn.2 / 32)
  (c.1, c.2, 1 - c.1, 1)

lemma qfloor_nat_div (k : Nat) : qfloor ((k : ℚ) / 32) = ((k / 32 : Nat) : ℚ) := by
  unfold qfloor
  rw [show ((32 : ℚ)) = ((32 : Nat) : ℚ) by norm_num, Rat.floor_natCast_div_natCast]
  push_cast
  rfl

lemma qfmod_nat (k : Nat) : qfmod ((k : ℚ)) 32 = ((k % 32 : Nat) : ℚ) := by
  unfold qfmod qtrunc
  rw [if_pos (by positivity)]
  rw [show ((32 : ℚ)) = ((32 : Nat) : ℚ) by norm_num, Rat.floor_natCast_div_natCast]
  have hle : 32 * (k / 32) ≤ k := Nat.mul_div_le k 32
  have hsub : ((k % 32 : Nat) : ℚ) = (k : ℚ) - ((32 * (k / 32) : Nat) : ℚ) := by
    rw [← Nat.cast_sub hle]
    congr 1
    omega
  rw [hsub]
  norm_cast

/-- C8 counterexample: the vertex stage does not pass the normalized cell
coordinate to the fragment stage. For instance index 1 (cell (1, 0)) the
normalized coordinate is (1/32, 0), but the output `cell` field holds the raw
coordinate (1, 0). -/
theorem C8_render_counterexample :
    (vertexMain zeroBuf (-4/5, -4/5) 1).cell ≠ ((1 : ℚ) / 32, (0 : ℚ)) := by
  simp only [vertexMain, qfmod, qtrunc, qfloor, ne_eq, Prod.mk.injEq, not_and]
  intro h
  norm_num at h

/-- C8 (amended): for instance index `k` of the draw call the vertex stage
computes the raw cell coordinate `(k mod 32, k div 32)` and passes it to the
fragment stage unscaled; the quad is scaled by the cell's activity (activity 0
collapses it to a point independent of the corner), offset by
`cellCoord / gridSize * 2`; the fragment stage itself normalizes the received
coordinate and outputs red/green equal to the normalized coordinate, blue one
minus its x component, and alpha 1. -/
theorem C8_render_stage (cell_state : Nat → Nat) (pos pos' : ℚ × ℚ) (k : Nat)
    (_hk : k < N) :
    (vertexMain cell_state pos k).cell =
      (((k % 32 : Nat) : ℚ), ((k / 32 : Nat) : ℚ)) ∧
    (cell_state k = 0 →
      (vertexMain cell_state pos k).pos = (vertexMain cell_state pos' k).pos) ∧
    (vertexMain cell_state pos k).pos =
      ((pos.1 * ((cell_state k : Nat) : ℚ) + 1) / 32 - 1 + ((k % 32 : Nat) : ℚ) / 32 * 2,
       (pos.2 * ((cell_state k : Nat) : ℚ) + 1) / 32 - 1 + ((k / 32 : Nat) : ℚ) / 32 * 2,
       0, 1) ∧
    fragmentMain (vertexMain cell_state pos k).cell =
      (((k % 32 : Nat) : ℚ) / 32, ((k / 32 : Nat) : ℚ) / 32,
       1 - ((k % 32 : Nat) : ℚ) / 32, 1) := by
  have h1 : (vertexMain cell_state pos k).cell =
      (((k % 32 : Nat) : ℚ), ((k / 32 : Nat) : ℚ)) := by
    show (qfmod ((k : ℚ)) 32, qfloor ((k : ℚ) / 32)) = _
    rw [qfmod_nat, qfloor_nat_div]
  refine ⟨h1, ?_, ?_, ?_⟩
  · intro h0
    simp [vertexMain, h0]
  · show ((pos.1 * _ + 1) / 32 - 1 + qfmod ((k : ℚ)) 32 / 32 * 2,
      (pos.2 * _ + 1) / 32 - 1 + qfloor ((k : ℚ) / 32) / 32 * 2, (0 : ℚ), (1 : ℚ)) = _
    rw [qfmod_nat, qfloor_nat_div]
  · rw [h1]
    rfl

/-- Witness for C8 at instance 5 on the all-dead buffer. -/
theorem C8_render_stage_witness :
    (5 : Nat) < N ∧ zeroBuf 5 = 0 ∧
    (vertexMain zeroBuf (-4/5, -4/5) 5).cell =
      (((5 % 32 : Nat) : ℚ), ((5 / 32 : Nat) : ℚ)) ∧
    (vertexMain zeroBuf (-4/5, -4/5) 5).pos = (vertexMain zeroBuf (4/5, -4/5) 5).pos ∧
    fragmentMain (vertexMain zeroBuf (-4/5, -4/5) 5).cell =
      (((5 % 32 : Nat) : ℚ) / 32, ((5 / 32 : Nat) : ℚ) / 32,
       1 - ((5 % 32 : Nat) : ℚ) / 32, 1) :=
  ⟨by decide, rfl,
    (C8_render_stage zeroBuf (-4/5, -4/5) (4/5, -4/5) 5 (by decide)).1,
    (C8_render_stage zeroBuf (-4/5, -4/5) (4/5, -4/5) 5 (by decide)).2.1 rfl,
    (C8_render_stage zeroBuf (-4/5, -4/5) (4/5, -4/5) 5 (by decide)).2.2.2⟩

end WgpuLife
